import Mathlib

/-!
Verification development for the ruson JSON engine.

The definitions below are a shallow embedding of the revision layer the
specification describes: `src/lexer.rs` (the character cursor),
`src/json/parser.rs` (`JsonParser`, the recursive-descent value parser) and
`src/json/token.rs` (the value tree, the query evaluator `apply`, and the
`Display` rendering).  Rust strings are modelled as Lean `String`
(sequences of unicode scalar values, as `Vec<char>` / `String` in the source);
`usize` arithmetic is modelled with `Nat` plus explicit wrapping at `2^64`
(release-profile semantics; debug builds would panic where a wrap occurs),
`u32`/`i32` likewise at `2^32`.  A Rust panic (out-of-range slice in
`consume_while`) is modelled by an explicit `crashed` outcome.  `f32`
arithmetic is idealised as exact rational arithmetic `ℚ`; no theorem below
depends on float rounding, and the rendering of non-integral numbers (where
`f32` shortest-decimal display would matter) is marked as unmodelled.
-/

set_option maxHeartbeats 4000000

namespace Ruson

/-! ### Machine integer helpers -/

/-- `usize` subtraction `a - b`, wrapping at `2^64` (release profile). -/
def wsub (a b : Nat) : Nat :=
  if b ≤ a then a - b else a + 2 ^ 64 - b

/-- `u32 as i32` (two's-complement reinterpretation). -/
def toI32 (n : Nat) : Int :=
  if n < 2 ^ 31 then (n : Int) else (n : Int) - 2 ^ 32

/-- Wrap an integer into `i32` range (release-profile overflow semantics). -/
def wrap32 (z : Int) : Int :=
  (z + 2 ^ 31) % 2 ^ 32 - 2 ^ 31

/-- UTF-8 byte size of one scalar value (Rust `char::len_utf8`). -/
def csize (c : Char) : Nat :=
  if c.toNat < 0x80 then 1
  else if c.toNat < 0x800 then 2
  else if c.toNat < 0x10000 then 3
  else 4

/-- Rust `str::len`: the UTF-8 byte length. -/
def byteLen (cs : List Char) : Nat :=
  (cs.map csize).sum

/-- Rust `char::is_whitespace` (Unicode `White_Space`). -/
def rustIsWhitespace (c : Char) : Bool :=
  let n := c.toNat
  (0x09 ≤ n && n ≤ 0x0D) || n == 0x20 || n == 0x85 || n == 0xA0 ||
    n == 0x1680 || (0x2000 ≤ n && n ≤ 0x200A) || n == 0x2028 ||
    n == 0x2029 || n == 0x202F || n == 0x205F || n == 0x3000

/-- Rust `char::is_digit(10)`. -/
def rustIsDigit (c : Char) : Bool :=
  '0' ≤ c && c ≤ '9'

/-- Value of a (non-empty) run of decimal digits. -/
def digitsVal (cs : List Char) : Nat :=
  cs.foldl (fun acc c => acc * 10 + (c.toNat - '0'.toNat)) 0

/-- Rust `"…".parse::<u32>()` on a string of decimal digits:
fails on the empty string and on overflow past `u32::MAX`. -/
def rustParseU32 (cs : List Char) : Option Nat :=
  if cs.isEmpty then none
  else if digitsVal cs ≤ 4294967295 then some (digitsVal cs) else none

/-! ### `Position` and `str::lines` (src/lexer.rs) -/

/-- `Position { row, col }` from src/lexer.rs. -/
structure Position where
  row : Nat
  col : Nat
deriving DecidableEq, Repr

/-- `Position::MINROW`. -/
def Position.MINROW : Nat := 1

/-- `Position::MINCOL`. -/
def Position.MINCOL : Nat := 1

/-- `Position::new()`. -/
def Position.new : Position :=
  { row := Position.MINROW, col := Position.MINCOL }

/-- Strip one trailing carriage return (used by `str::lines` on
`\r\n`-terminated lines). -/
def stripCR (cs : List Char) : List Char :=
  if cs.getLast? = some '\r' then cs.dropLast else cs

/-- Rust `str::lines`: split at `\n` (also swallowing a preceding `\r`),
with no trailing empty line for a final line terminator.  A lone `\r`
not followed by `\n` is kept in the line. -/
def rustLines (cs : List Char) : List (List Char) :=
  if cs = [] then []
  else
    let segs := cs.splitOn '\n'
    if cs.getLast? = some '\n' then (segs.dropLast).map stripCR
    else (segs.dropLast).map stripCR ++ [(segs.getLast?).getD []]

/-! ### The Lexer (src/lexer.rs) -/

/-- `Lexer { stack: Vec<char>, cursor: usize }`. -/
structure Lexer where
  stack : List Char
  cursor : Nat
deriving DecidableEq, Repr

/-- `Lexer::new`. -/
def Lexer.new (s : String) : Lexer :=
  { stack := s.toList, cursor := 0 }

/-- `Lexer::peek_at`. -/
def Lexer.peekAt (l : Lexer) (c : Nat) : Option Char :=
  l.stack[c]?

/-- `Lexer::peek`. -/
def Lexer.peek (l : Lexer) : Option Char :=
  l.peekAt l.cursor

/-- The `take_while` pass of `Lexer::consume_while`, with the closure's
captured mutable state threaded explicitly (the closure may flip a flag,
as in `parse_qstring`).  State is updated only when the closure accepts,
exactly as a Rust closure that returns early on reject. -/
def takeWhileSt {σ : Type} (f : σ → Char → Bool × σ) : σ → List Char → List Char
  | _, [] => []
  | st, c :: cs =>
    match f st c with
    | (true, st') => c :: takeWhileSt f st' cs
    | (false, _) => []

/-- `Lexer::consume_while` with a stateful closure.  Rust slices
`self.stack[self.cursor..]`, which panics when the cursor has moved past
the end of the stack (possible: see `consume_string`); `none` models that
panic.  On success the cursor advances by the number of consumed chars. -/
def Lexer.consumeWhileSt {σ : Type} (l : Lexer) (f : σ → Char → Bool × σ)
    (s0 : σ) : Option (List Char × Lexer) :=
  if l.cursor ≤ l.stack.length then
    let cs := takeWhileSt f s0 (l.stack.drop l.cursor)
    some (cs, { l with cursor := l.cursor + cs.length })
  else none

/-- `Lexer::consume_while` with a plain predicate. -/
def Lexer.consumeWhile (l : Lexer) (p : Char → Bool) :
    Option (List Char × Lexer) :=
  l.consumeWhileSt (fun _ c => (p c, ())) ()

/-- `Lexer::consume_byte`. -/
def Lexer.consumeByte (l : Lexer) (x : Char) : Option (Char × Lexer) :=
  match l.peek with
  | some ch => if x = ch then some (x, { l with cursor := l.cursor + 1 }) else none
  | none => none

/-- The loop of `Lexer::consume_string`: for each char `c` of the literal,
a mismatch with an in-bounds stack char aborts, but *end of input does not*
— `next_index` keeps advancing past the end and the match still succeeds. -/
def consumeStringLoop (stack : List Char) : List Char → Nat → Option Nat
  | [], i => some i
  | c :: cs, i =>
    match stack[i]? with
    | some x => if c = x then consumeStringLoop stack cs (i + 1) else none
    | none => consumeStringLoop stack cs (i + 1)

/-- `Lexer::consume_string`.  On success the cursor is set to
`cursor + |ys|` (possibly past the end of the stack); on failure the
cursor is untouched. -/
def Lexer.consumeString (l : Lexer) (ys : String) : Option (String × Lexer) :=
  match consumeStringLoop l.stack ys.toList l.cursor with
  | some ni => some (ys, { l with cursor := ni })
  | none => none

/-- `Lexer::consume_uint`.  The digit run is consumed (cursor side effect)
even when the numeric parse fails; outer `none` models the slice panic. -/
def Lexer.consumeUint (l : Lexer) : Option (Option Nat × Lexer) :=
  (l.consumeWhile rustIsDigit).map fun r => (rustParseU32 r.1, r.2)

/-- `Lexer::consume_int`: optional `-`, then `consume_uint`, the value
reinterpreted `u32 as i32` and multiplied by the sign with `i32` wrapping. -/
def Lexer.consumeInt (l : Lexer) : Option (Option Int × Lexer) :=
  let m := match l.consumeByte '-' with
    | some r => ((-1 : Int), r.2)
    | none => ((1 : Int), l)
  (m.2.consumeUint).map fun r => (r.1.map fun n => wrap32 (toI32 n * m.1), r.2)

/-- `Lexer::get_string`. -/
def Lexer.getString (l : Lexer) : List Char :=
  l.stack

/-- `Lexer::position`: `row` is `lines().count()` of the prefix before
`cursor`, `col` the byte length of that prefix's last line (both are `0`
for an empty prefix, despite `MINROW`/`MINCOL`). -/
def Lexer.position (l : Lexer) (cursor : Nat) : Position :=
  let s := l.stack.take cursor
  { row := (rustLines s).length
  , col := byteLen (((rustLines s).getLast?).getD []) }

/-! ### The value tree (src/json/token.rs, `Json` in src/json/parser.rs)

`Object` is a `HashMap<String, Json>` in the source; it is modelled as an
association list in insertion order.  The parser only ever inserts fresh
keys (a duplicate aborts the parse first), so the contents coincide; the
unspecified `HashMap` iteration order means only single-entry objects have
a deterministic rendering, and no theorem below relies on the order of a
multi-entry object. -/
inductive JsonToken where
  | Null : JsonToken
  | Boolean (b : Bool) : JsonToken
  | Number (n : ℚ) : JsonToken
  | QString (s : String) : JsonToken
  | Array (xs : List JsonToken) : JsonToken
  | Object (kvs : List (String × JsonToken)) : JsonToken

/-- `JsonToken::variant`. -/
def JsonToken.variant : JsonToken → String
  | .Null => "Null"
  | .Boolean _ => "Boolean"
  | .Number _ => "Number"
  | .QString _ => "String"
  | .Array _ => "Array"
  | .Object _ => "Object"

/-- `HashMap::get` on the association-list model. -/
def alistGet (kvs : List (String × JsonToken)) (k : String) : Option JsonToken :=
  (kvs.find? fun kv => kv.1 = k).map fun kv => kv.2

/-- `HashMap::contains_key`. -/
def alistContains (kvs : List (String × JsonToken)) (k : String) : Bool :=
  kvs.any fun kv => kv.1 = k

/-! ### Query properties (src/json/token.rs `JsonProperty`)

`JsonQuery` is a newtype over `Vec<JsonProperty>` whose only observer is
`properties()` (an iterator); the wrapper is modelled transparently as the
property list itself. -/
inductive JsonProperty where
  | Dot (s : String) : JsonProperty
  | Bracket (s : String) : JsonProperty
  | Index (i : Nat) : JsonProperty
  | Keys : JsonProperty
  | Values : JsonProperty
  | Length : JsonProperty
  | Map (q : List JsonProperty) : JsonProperty

/-- Rust `str` `Debug` escaping of one char (`escape_debug` without the
single-quote escape): used when a `String` is formatted with `{:?}`, as
`HashMap` keys are.  Exotic non-ASCII escapes are not modelled (no theorem
touches them). -/
def escapeDebugChar (c : Char) : List Char :=
  if c = '\t' then ['\\', 't']
  else if c = '\r' then ['\\', 'r']
  else if c = '\n' then ['\\', 'n']
  else if c = '\\' then ['\\', '\\']
  else if c = '"' then ['\\', '"']
  else if c.toNat < 0x20 then
    ['\\', 'u', '\x7b'] ++ (Nat.toDigits 16 c.toNat) ++ ['\x7d']
  else [c]

/-- Rust `format!("{:?}", s)` for a `String`: quoted, `Debug`-escaped. -/
def debugStr (s : String) : String :=
  "\"" ++ String.mk (s.toList.flatMap escapeDebugChar) ++ "\""

/-- Rust `i32`/`usize` `Display`. -/
def intRepr (z : Int) : String :=
  if z < 0 then "-" ++ Nat.repr z.natAbs else Nat.repr z.natAbs

/-- `String::to_ascii_lowercase`. -/
def toAsciiLower (s : String) : String :=
  String.mk (s.toList.map fun c =>
    if 'A' ≤ c ∧ c ≤ 'Z' then Char.ofNat (c.toNat + 32) else c)

mutual
/-- Derived `Debug` for `JsonProperty` (used by the `Display` fallback arm). -/
def debugProp : JsonProperty → String
  | .Dot s => "Dot(" ++ debugStr s ++ ")"
  | .Bracket s => "Bracket(" ++ debugStr s ++ ")"
  | .Index i => "Index(" ++ Nat.repr i ++ ")"
  | .Keys => "Keys"
  | .Values => "Values"
  | .Length => "Length"
  | .Map q => "Map(JsonQuery([" ++ debugProps q ++ "]))"

/-- Derived `Debug` of a `Vec<JsonProperty>` body (`", "`-separated). -/
def debugProps : List JsonProperty → String
  | [] => ""
  | [p] => debugProp p
  | p :: ps => debugProp p ++ ", " ++ debugProps ps
end

/-- `impl Display for JsonProperty`: `Dot`/`Bracket`/`Index` print their
source syntax; the other variants print their `Debug` text lowercased and
re-quoted through `{:?}`. -/
def displayProp (p : JsonProperty) : String :=
  match p with
  | .Dot s => "." ++ s
  | .Bracket s => "[\"" ++ s ++ "\"]"
  | .Index i => "[" ++ Nat.repr i ++ "]"
  | _ => debugStr (toAsciiLower (debugProp p))

/-- The two-line type-mismatch message built in `JsonToken::apply`
(`vec![…].join("\n")`). -/
def typeErr (fname target found : String) : String :=
  "'" ++ fname ++ "' can only be applied on '" ++ target ++ "'." ++ "\n" ++
    "Found '" ++ found ++ "' instead."

/-- The orphan-property message of `JsonToken::apply`. -/
def orphanErr (p : JsonProperty) : String :=
  "Query structure doesn't match (near '" ++ displayProp p ++ "')."

mutual
/-- `JsonToken::apply` (src/json/token.rs).  The source's imperative loop
reassigns `token` for `Dot`/`Bracket`/`Index` and returns
`Self::Array(..).apply(&q)` on the remaining properties for
`Keys`/`Values`/`Map`; both are the recursion below.  `Length` returns
immediately, discarding any remaining properties, as the source does. -/
def apply (t : JsonToken) (q : List JsonProperty) : Except String JsonToken :=
  match q with
  | [] => .ok t
  | p :: rest =>
    match p, t with
    | .Dot s, .Object kvs | .Bracket s, .Object kvs =>
      match alistGet kvs s with
      | some v => apply v rest
      | none => .error ("key doesn't exist: '" ++ s ++ "'")
    | .Dot _, _ | .Bracket _, _ => .error (orphanErr p)
    | .Index i, .Array xs =>
      match xs[i]? with
      | some v => apply v rest
      | none => .error ("Invalid index: '" ++ Nat.repr i ++ "'")
    | .Index _, _ => .error (orphanErr p)
    | .Keys, .Object kvs =>
      apply (.Array (kvs.map fun kv => .QString kv.1)) rest
    | .Keys, _ => .error (typeErr "keys" "Object" t.variant)
    | .Values, .Object kvs =>
      apply (.Array (kvs.map fun kv => kv.2)) rest
    | .Values, _ => .error (typeErr "values" "Object" t.variant)
    | .Length, .Array xs => .ok (.Number (xs.length : ℚ))
    | .Length, _ => .error (typeErr "length" "Array" t.variant)
    | .Map q', .Array xs =>
      match applyList xs q' with
      | .error e => .error e
      | .ok arr => apply (.Array arr) rest
    | .Map _, _ => .error (typeErr "map" "Array" t.variant)
termination_by (sizeOf q, 0)

/-- The `Map` arm's `array.iter().map(|json| json.apply(query)).collect::
<Result<Vec<_>, _>>()`: elementwise application, stopping at the first
failing element. -/
def applyList (xs : List JsonToken) (q : List JsonProperty) :
    Except String (List JsonToken) :=
  match xs with
  | [] => .ok []
  | x :: r =>
    match apply x q with
    | .error e => .error e
    | .ok v =>
      match applyList r q with
      | .error e => .error e
      | .ok vs => .ok (v :: vs)
termination_by (sizeOf q, 1 + sizeOf xs)
end

/-! ### Rendering (`impl Display for JsonToken`, src/json/token.rs)

`Display` writes scalars directly and formats `Array`/`Object` with `{:?}`,
i.e. the std `Vec`/`HashMap` `Debug` layout (`[a, b]` / `{"k": v}` with
`", "` separators), whose elements are `JsonToken`'s `Debug` — which is
defined to be its `Display` again.  `HashMap` keys are `String`s and are
therefore `Debug`-escape-quoted, although string *values* (and the stored
bodies) are written raw. -/

/-- Rust `f32` `Display` for the values the parser produces, idealised:
an integral value prints as its integer (`"1"`, `"-3"`, `"40"`), which
matches Rust exactly; the shortest-decimal display of non-integral values
is not modelled (marked by a `"?"`-suffixed placeholder) and no theorem
depends on it. -/
def displayF32 (q : ℚ) : String :=
  if q.den = 1 then intRepr q.num
  else intRepr q.num ++ "/" ++ Nat.repr q.den ++ "?"

mutual
/-- `impl Display for JsonToken`. -/
def render : JsonToken → String
  | .Null => "null"
  | .Boolean b => if b then "true" else "false"
  | .Number q => displayF32 q
  | .QString s => "\"" ++ s ++ "\""
  | .Array xs => "[" ++ renderElems xs ++ "]"
  | .Object kvs => "\x7b" ++ renderMembers kvs ++ "\x7d"

/-- `Vec<JsonToken>` `Debug` body. -/
def renderElems : List JsonToken → String
  | [] => ""
  | [x] => render x
  | x :: xs => render x ++ ", " ++ renderElems xs

/-- `HashMap<String, JsonToken>` `Debug` body, in the model's
(insertion) order. -/
def renderMembers : List (String × JsonToken) → String
  | [] => ""
  | [kv] => debugStr kv.1 ++ ": " ++ render kv.2
  | kv :: kvs => debugStr kv.1 ++ ": " ++ render kv.2 ++ ", " ++ renderMembers kvs
end

/-! ### The value parser (`JsonParser`, src/json/parser.rs)

Parsing mutates a `Lexer`; here every step threads the lexer explicitly.
An error result carries the lexer *as left by the failed step*, because
the source continues parsing on the mutated state after a recoverable
failure (`.is_ok()` / `.or_else` / `.ok()` sites).  `crashed` models a
Rust panic (the out-of-range slice of `consume_while`).  The mutually
recursive productions take a fuel argument for totality only: `parse`
hands them more fuel than any run can use, since every recursive step
first consumes at least one input character. -/
inductive JsonErrorType where
  | SyntaxError : JsonErrorType
  | DuplicateKeyError : JsonErrorType
  | TrailingCommaError : JsonErrorType
deriving DecidableEq, Repr

inductive PResult (α : Type) where
  | crashed : PResult α
  | err (e : JsonErrorType × Nat) (l : Lexer) : PResult α
  | ok (a : α) : PResult α

/-- `JsonParser::trim_front` (`consume_while(is_whitespace)`). -/
def trimFront (l : Lexer) : Option Lexer :=
  (l.consumeWhile rustIsWhitespace).map fun r => r.2

/-- The loop of `JsonParser::untrim_front`: step back while looking at
whitespace and the cursor is positive.  The fuel equals the starting
cursor, which bounds the loop exactly. -/
def untrimLoop : Nat → Lexer → Lexer
  | 0, l => l
  | fuel + 1, l =>
    match l.peek with
    | some ch =>
      if rustIsWhitespace ch ∧ 0 < l.cursor then
        untrimLoop fuel { l with cursor := l.cursor - 1 }
      else l
    | none => l

/-- `JsonParser::untrim_front`: one unconditional (wrapping) decrement,
then back over whitespace. -/
def untrimFront (l : Lexer) : Lexer :=
  let l1 : Lexer := { l with cursor := wsub l.cursor 1 }
  untrimLoop l1.cursor l1

/-- `JsonParser::parse_byte`. -/
def parseByteP (l : Lexer) (c : Char) : PResult Lexer :=
  match l.consumeByte c with
  | some r => .ok r.2
  | none => .err (.SyntaxError, l.cursor) l

/-- `ndigits!` macro: decimal digit count, `0` for `0`.  The fuel equals
the number itself, which bounds the division loop. -/
def ndigitsAux : Nat → Nat → Nat
  | 0, _ => 0
  | fuel + 1, num => if 0 < num then ndigitsAux fuel (num / 10) + 1 else 0

def ndigits (z : Int) : Nat :=
  ndigitsAux z.toNat z.toNat

/-- `JsonParser::parse_null`. -/
def parseNull (l : Lexer) : PResult (JsonToken × Lexer) :=
  match l.consumeString "null" with
  | some r => .ok (.Null, r.2)
  | none => .err (.SyntaxError, l.cursor) l

/-- `JsonParser::parse_boolean`. -/
def parseBoolean (l : Lexer) : PResult (JsonToken × Lexer) :=
  match l.consumeString "true" with
  | some r => .ok (.Boolean true, r.2)
  | none =>
    match l.consumeString "false" with
    | some r => .ok (.Boolean false, r.2)
    | none => .err (.SyntaxError, l.cursor) l

/-- The decimal stage of `JsonParser::parse_number`: optional `.`, leading
zeroes, then an int contributing `number / 10^(ndigits + zeroes)`; any
failure inside keeps the side effects and returns the previous float
(`.or(Some(f))`). -/
def decimalStage (f : ℚ) (l : Lexer) : Option (ℚ × Lexer) :=
  match l.consumeByte '.' with
  | none => some (f, l)
  | some r =>
    match r.2.consumeWhile (fun ch => ch == '0') with
    | none => none
    | some (zs, l2) =>
      match l2.consumeInt with
      | none => none
      | some (mn, l3) =>
        match mn with
        | some number =>
          if 0 ≤ number then
            let digits := ndigits number + zs.length
            let decimal := (number : ℚ) / 10 ^ digits
            some (f + (if 0 ≤ f then decimal else -decimal), l3)
          else some (f, l3)
        | none => some (f, l3)

/-- `format!("{}e{}", f, exp).parse::<f32>()`, idealised to exact
rational scaling. -/
def fexp (f : ℚ) (e : Int) : ℚ :=
  f * (10 : ℚ) ^ e

/-- The exponent digits after `e`/`E`: `+` then `consume_uint` (cast
`u32 as i32`), otherwise `consume_int`. -/
def exponentNum (f : ℚ) (l : Lexer) : Option (Option ℚ × Lexer) :=
  match l.consumeByte '+' with
  | some r => (r.2.consumeUint).map fun ru => (ru.1.map fun n => fexp f (toI32 n), ru.2)
  | none => (l.consumeInt).map fun ri => (ri.1.map fun e => fexp f e, ri.2)

/-- The exponent stage of `JsonParser::parse_number`. -/
def exponentStage (f : ℚ) (l : Lexer) : Option (Option ℚ × Lexer) :=
  match l.consumeByte 'e' with
  | some r => exponentNum f r.2
  | none =>
    match l.consumeByte 'E' with
    | some r => exponentNum f r.2
    | none => some (some f, l)

/-- `JsonParser::parse_number`. -/
def parseNumber (l : Lexer) : PResult (JsonToken × Lexer) :=
  match l.consumeInt with
  | none => .crashed
  | some (mf, l1) =>
    match mf with
    | none => .err (.SyntaxError, l1.cursor) l1
    | some n =>
      match decimalStage (n : ℚ) l1 with
      | none => .crashed
      | some (f2, l2) =>
        match exponentStage f2 l2 with
        | none => .crashed
        | some (mf3, l3) =>
          match mf3 with
          | some v => .ok (.Number v, l3)
          | none => .err (.SyntaxError, l3.cursor) l3

/-- The escape flag of `parse_qstring`'s closure: a `"` stops the run
unless the flag is set; the flag afterwards records whether this char was
a backslash. -/
def qstringStep (escaped : Bool) (ch : Char) : Bool × Bool :=
  if ch == '"' && !escaped then (false, escaped) else (true, ch == '\\')

/-- `JsonParser::parse_qstring`. -/
def parseQString (l : Lexer) : PResult (JsonToken × Lexer) :=
  match parseByteP l '"' with
  | .crashed => .crashed
  | .err e l' => .err e l'
  | .ok l1 =>
    match l1.consumeWhileSt qstringStep false with
    | none => .crashed
    | some (cs, l2) =>
      match parseByteP l2 '"' with
      | .crashed => .crashed
      | .err e l' => .err e l'
      | .ok l3 => .ok (.QString (String.mk cs), l3)

/-- The closing `]` of `parse_array` (`trim_front().parse_byte(']')`). -/
def finishArray (l : Lexer) (acc : List JsonToken) : PResult (JsonToken × Lexer) :=
  match trimFront l with
  | none => .crashed
  | some l1 =>
    match parseByteP l1 ']' with
    | .crashed => .crashed
    | .err e l' => .err e l'
    | .ok l2 => .ok (.Array acc, l2)

/-- The closing `}` of `parse_object`. -/
def finishObject (l : Lexer) (acc : List (String × JsonToken)) :
    PResult (JsonToken × Lexer) :=
  match trimFront l with
  | none => .crashed
  | some l1 =>
    match parseByteP l1 '}' with
    | .crashed => .crashed
    | .err e l' => .err e l'
    | .ok l2 => .ok (.Object acc, l2)

/-! The six mutually recursive pieces of `parse_any` / `parse_array` /
`parse_object` (the two comma loops included) are implemented as one
function `parseStep`, structurally recursive on its fuel, over a frame
type naming which production is running and its local state; the named
wrappers below restore the source's shape.  This is purely so that
concrete runs reduce cheaply; each frame's body is the literal
translation of the corresponding source fragment. -/
inductive ParseFrame where
  | anyF (l : Lexer) : ParseFrame
  | arrayF (l : Lexer) : ParseFrame
  | arrayLoopF (l : Lexer) (acc : List JsonToken) : ParseFrame
  | objectF (l : Lexer) : ParseFrame
  | objectLoopF (l : Lexer) (acc : List (String × JsonToken)) (key : String) : ParseFrame
  | objectCommaF (l : Lexer) (acc : List (String × JsonToken)) : ParseFrame

def parseStep : Nat → ParseFrame → PResult (JsonToken × Lexer)
  | 0, _ => .crashed
  | fuel + 1, f =>
    match f with
    | .anyF l =>
      (match l.peek with
      | some c =>
        if c = '-' ∨ ('0' ≤ c ∧ c ≤ '9') then parseNumber l
        else if c = 't' ∨ c = 'f' then parseBoolean l
        else if c = '"' then parseQString l
        else if c = 'n' then parseNull l
        else if c = '[' then parseStep fuel (.arrayF l)
        else if c = '{' then parseStep fuel (.objectF l)
        else .err (.SyntaxError, l.cursor) l
      | none => .err (.SyntaxError, l.cursor) l)
    | .arrayF l =>
      (match parseByteP l '[' with
      | .crashed => .crashed
      | .err e l' => .err e l'
      | .ok l1 =>
        match trimFront l1 with
        | none => .crashed
        | some l2 =>
          match parseStep fuel (.anyF l2) with
          | .crashed => .crashed
          | .err _ lf => finishArray lf []
          | .ok (t, l3) => parseStep fuel (.arrayLoopF l3 [t]))
    | .arrayLoopF l acc =>
      (match trimFront l with
      | none => .crashed
      | some l1 =>
        match parseByteP l1 ',' with
        | .crashed => .crashed
        | .err _ l2 => finishArray l2 acc
        | .ok l2 =>
          match trimFront l2 with
          | none => .crashed
          | some l3 =>
            match parseStep fuel (.anyF l3) with
            | .crashed => .crashed
            | .ok (t, l4) => parseStep fuel (.arrayLoopF l4 (acc ++ [t]))
            | .err _ l4 =>
              let l5 := untrimFront l4
              .err (.TrailingCommaError, l5.cursor) l5)
    | .objectF l =>
      (match parseByteP l '{' with
      | .crashed => .crashed
      | .err e l' => .err e l'
      | .ok l1 =>
        match trimFront l1 with
        | none => .crashed
        | some l2 =>
          match parseQString l2 with
          | .crashed => .crashed
          | .err _ lf => finishObject lf []
          | .ok (t, l3) =>
            match t with
            | .QString key => parseStep fuel (.objectLoopF l3 [] key)
            | _ => finishObject l3 [])
    | .objectLoopF l acc key =>
      (if alistContains acc key then
        let l' : Lexer := { l with cursor := wsub l.cursor (wsub (byteLen key.toList) 1) }
        .err (.DuplicateKeyError, l'.cursor) l'
      else
        match trimFront l with
        | none => .crashed
        | some l1 =>
          match parseByteP l1 ':' with
          | .crashed => .crashed
          | .err e l' => .err e l'
          | .ok l2 =>
            match trimFront l2 with
            | none => .crashed
            | some l3 =>
              match parseStep fuel (.anyF l3) with
              | .crashed => .crashed
              | .err e l' => .err e l'
              | .ok (tok, l4) =>
                match trimFront l4 with
                | none => .crashed
                | some l5 => parseStep fuel (.objectCommaF l5 (acc ++ [(key, tok)])))
    | .objectCommaF l acc =>
      (match parseByteP l ',' with
      | .crashed => .crashed
      | .err _ l6 => finishObject l6 acc
      | .ok l6 =>
        match trimFront l6 with
        | none => .crashed
        | some l7 =>
          match parseQString l7 with
          | .crashed => .crashed
          | .ok (t, l8) =>
            match t with
            | .QString k2 => parseStep fuel (.objectLoopF l8 acc k2)
            | _ => finishObject l8 acc
          | .err _ l8 =>
            let l9 := untrimFront l8
            .err (.TrailingCommaError, l9.cursor) l9)


/-- `JsonParser::parse_any`: dispatch on the peeked character. -/
def parseAny (fuel : Nat) (l : Lexer) : PResult (JsonToken × Lexer) :=
  parseStep fuel (.anyF l)

/-- `JsonParser::parse_array`.  A failed first element is recovered from
(`.is_ok()`), continuing on the mutated lexer with an empty array. -/
def parseArray (fuel : Nat) (l : Lexer) : PResult (JsonToken × Lexer) :=
  parseStep fuel (.arrayF l)

/-- The comma loop of `parse_array`: parse further values only while a
comma is present; a comma not followed by a value is a
`TrailingCommaError` at the un-trimmed position. -/
def arrayLoop (fuel : Nat) (l : Lexer) (acc : List JsonToken) :
    PResult (JsonToken × Lexer) :=
  parseStep fuel (.arrayLoopF l acc)

/-- `JsonParser::parse_object`.  A failed first key is recovered from
(`.ok()` making `json_key = None`), continuing on the mutated lexer. -/
def parseObject (fuel : Nat) (l : Lexer) : PResult (JsonToken × Lexer) :=
  parseStep fuel (.objectF l)

/-- One iteration of `parse_object`'s `while` loop, entered with the
freshly parsed key: the duplicate check (with the `cursor -= key.len() - 1`
walk-back — `key.len()` is the UTF-8 byte length, and both subtractions are
wrapping `usize` arithmetic), then `: value`, then `objectComma`. -/
def objectLoop (fuel : Nat) (l : Lexer) (acc : List (String × JsonToken))
    (key : String) : PResult (JsonToken × Lexer) :=
  parseStep fuel (.objectLoopF l acc key)

/-- The tail of `parse_object`'s loop body: a further key is parsed only
if a comma is present (`json_key = None` otherwise); a comma not followed
by a quoted key is a `TrailingCommaError` at the un-trimmed position. -/
def objectComma (fuel : Nat) (l : Lexer) (acc : List (String × JsonToken)) :
    PResult (JsonToken × Lexer) :=
  parseStep fuel (.objectCommaF l acc)

/-- `JsonParseError` (src/json/error.rs): the displayed line, the resolved
position and the error kind. -/
structure JsonParseError where
  line : String
  position : Position
  error_type : JsonErrorType
deriving DecidableEq, Repr

/-- The error line: `get_string().lines().skip(row - 1).take(1).collect()`
(with wrapping `usize` subtraction `row - 1`). -/
def errLine (stack : List Char) (row : Nat) : String :=
  String.mk ((((rustLines stack).drop (wsub row 1)).take 1).flatten)

/-- Fuel handed to the recursive productions: strictly more than any run
can use (every recursive step first consumes at least one character). -/
def fuelFor (l : Lexer) : Nat :=
  2 * l.stack.length + 16

/-- `JsonParser::parse` up to error conversion: the initial `trim_front`
composed with `parse_any`, yielding the raw `(JsonErrorType, usize)`
error.  Several claims speak about character offsets, which live here. -/
def parseRaw (s : String) : PResult (JsonToken × Lexer) :=
  match trimFront (Lexer.new s) with
  | none => .crashed
  | some l1 => parseAny (fuelFor l1) l1

/-- `JsonParser::parse`: `parseRaw` with the error converted to a
positioned `JsonParseError`.  `none` models a panic. -/
def parse (s : String) : Option (Except JsonParseError JsonToken) :=
  match parseRaw s with
  | .crashed => none
  | .ok r => some (.ok r.1)
  | .err (ty, cursor) lf =>
    let position := lf.position cursor
    some (.error { line := errLine lf.getString position.row
                 , position := position
                 , error_type := ty })

/-! ### Helper lemmas -/

/-- `applyList` succeeds exactly on the pointwise successes: a `Forall₂`
witness gives the collected result list. -/
theorem applyList_ok_of_forall2 {q : List JsonProperty} :
    ∀ {xs rs : List JsonToken},
      List.Forall₂ (fun x r => apply x q = .ok r) xs rs →
      applyList xs q = .ok rs := by
  intro xs rs h
  induction h with
  | nil => simp [applyList]
  | cons h1 _ ih => simp [applyList, h1, ih]

/-- If any element of `xs` fails under `q`, `applyList` fails, and with an
error that is itself some element's error. -/
theorem applyList_error_of_mem {q : List JsonProperty} :
    ∀ {xs : List JsonToken} {x : JsonToken} {e : String}, x ∈ xs →
      apply x q = .error e →
      ∃ e', applyList xs q = .error e' ∧ ∃ y ∈ xs, apply y q = .error e' := by
  intro xs
  induction xs with
  | nil => intro x e h; cases h
  | cons y ys ih =>
    intro x e hmem herr
    cases hy : apply y q with
    | error e0 =>
      exact ⟨e0, by simp [applyList, hy], y, List.mem_cons_self y ys, hy⟩
    | ok v =>
      rcases List.mem_cons.mp hmem with rfl | hx
      · rw [herr] at hy; cases hy
      · rcases ih hx herr with ⟨e', he', y', hy', herr'⟩
        exact ⟨e', by simp [applyList, hy, he'], y',
          List.mem_cons_of_mem _ hy', herr'⟩

/-- The `consume_string` walk either lands exactly `|literal|` past its
start, or fails; no other index is possible. -/
theorem consumeStringLoop_shape (stack : List Char) :
    ∀ (cs : List Char) (i : Nat),
      consumeStringLoop stack cs i = some (i + cs.length) ∨
        consumeStringLoop stack cs i = none := by
  intro cs
  induction cs with
  | nil => intro i; left; simp [consumeStringLoop]
  | cons c cs ih =>
    intro i
    rcases hx : stack[i]? with _ | x
    · have hlo : consumeStringLoop stack (c :: cs) i =
          consumeStringLoop stack cs (i + 1) := by
        simp [consumeStringLoop, hx]
      rcases ih (i + 1) with h | h
      · left; rw [hlo, h]; congr 1; simp; omega
      · right; rw [hlo, h]
    · by_cases hcx : c = x
      · have hlo : consumeStringLoop stack (c :: cs) i =
            consumeStringLoop stack cs (i + 1) := by
          simp [consumeStringLoop, hx, hcx]
        rcases ih (i + 1) with h | h
        · left; rw [hlo, h]; congr 1; simp; omega
        · right; rw [hlo, h]
      · right; simp [consumeStringLoop, hx, hcx]

/-- The `consume_string` walk succeeds iff every literal character that
falls *within* the input matches it; a literal character beyond the end of
the input is accepted vacuously. -/
theorem consumeStringLoop_some_iff (stack : List Char) :
    ∀ (cs : List Char) (i : Nat),
      (consumeStringLoop stack cs i).isSome = true ↔
        ∀ j y x, cs[j]? = some y → stack[i + j]? = some x → y = x := by
  intro cs
  induction cs with
  | nil =>
    intro i
    constructor
    · intro _ j y x hj _
      simp at hj
    · intro _; simp [consumeStringLoop]
  | cons c cs ih =>
    intro i
    have step : ∀ (hrec : consumeStringLoop stack (c :: cs) i =
          consumeStringLoop stack cs (i + 1))
        (hhead : ∀ x, stack[i]? = some x → c = x),
        ((consumeStringLoop stack (c :: cs) i).isSome = true ↔
          ∀ j y x, (c :: cs)[j]? = some y →
            stack[i + j]? = some x → y = x) := by
      intro hrec hhead
      rw [hrec, ih (i + 1)]
      constructor
      · intro h j y x hj hsx
        cases j with
        | zero =>
          simp at hj
          subst hj
          rw [Nat.add_zero] at hsx
          exact hhead x hsx
        | succ j =>
          have hj' : cs[j]? = some y := by simpa using hj
          have hsx' : stack[i + 1 + j]? = some x := by
            have : i + (j + 1) = i + 1 + j := by omega
            rw [this] at hsx; exact hsx
          exact h j y x hj' hsx'
      · intro h j y x hj hsx
        have hj' : (c :: cs)[j + 1]? = some y := by simpa using hj
        have hsx' : stack[i + (j + 1)]? = some x := by
          have : i + 1 + j = i + (j + 1) := by omega
          rw [this] at hsx; exact hsx
        exact h (j + 1) y x hj' hsx'
    rcases hx : stack[i]? with _ | x
    · refine step (by simp [consumeStringLoop, hx]) ?_
      intro x hx'; rw [hx] at hx'; cases hx'
    · by_cases hcx : c = x
      · refine step (by simp [consumeStringLoop, hx, hcx]) ?_
        intro x' hx'; rw [hx] at hx'; injection hx' with hx'; rw [hcx, hx']
      · have hlo : consumeStringLoop stack (c :: cs) i = none := by
          simp [consumeStringLoop, hx, hcx]
        rw [hlo]
        simp only [Option.isSome_none, Bool.false_eq_true, false_iff]
        intro h
        exact hcx (h 0 c x (by simp) (by simpa using hx))

/-- The run of `parse_qstring`'s escape-flag closure, with an arbitrary
initial flag: the consumed body is a prefix `take k` of the input; every
quote inside it has a backslash immediately before it (or consumed the
initial flag at position 0); and if the run stopped early it stopped on a
quote whose immediately preceding character is not a backslash. -/
theorem takeWhileSt_qstring_spec :
    ∀ (cs : List Char) (esc : Bool),
      ∃ k, takeWhileSt qstringStep esc cs = cs.take k ∧ k ≤ cs.length ∧
        (∀ j, j < k → cs[j]? = some '"' →
            (j = 0 ∧ esc = true) ∨ (∃ jp, j = jp + 1 ∧ cs[jp]? = some '\\')) ∧
        (k < cs.length → cs[k]? = some '"' ∧
            ((k = 0 ∧ esc = false) ∨
              (∃ kp, k = kp + 1 ∧ ∀ c, cs[kp]? = some c → c ≠ '\\'))) := by
  intro cs
  induction cs with
  | nil =>
    intro esc
    refine ⟨0, by simp [takeWhileSt], by simp, ?_, by simp⟩
    intro j hj
    omega
  | cons c cs ih =>
    intro esc
    by_cases hq : c = '"' ∧ esc = false
    · obtain ⟨rfl, rfl⟩ := hq
      refine ⟨0, by simp [takeWhileSt, qstringStep], by simp, ?_, ?_⟩
      · intro j hj; omega
      · intro _
        exact ⟨by simp, Or.inl ⟨rfl, rfl⟩⟩
    · have hstep : qstringStep esc c = (true, c == '\\') := by
        unfold qstringStep
        have hcond : (c == '"' && !esc) = false := by
          cases esc with
          | true => simp
          | false =>
            simp only [Bool.not_false, Bool.and_true, beq_eq_false_iff_ne, ne_eq]
            intro hc
            exact hq ⟨hc, rfl⟩
        simp [hcond]
      obtain ⟨k, hk, hkle, hin, hstop⟩ := ih (c == '\\')
      refine ⟨k + 1, ?_, by simpa using Nat.succ_le_succ hkle, ?_, ?_⟩
      · simp [takeWhileSt, hstep, hk]
      · intro j hj hjq
        cases j with
        | zero =>
          left
          refine ⟨rfl, ?_⟩
          have hc : c = '"' := by simpa using hjq
          cases hesc : esc with
          | false => exact absurd ⟨hc, hesc⟩ hq
          | true => rfl
        | succ j =>
          have hj' : j < k := by omega
          have hjq' : cs[j]? = some '"' := by simpa using hjq
          rcases hin j hj' hjq' with ⟨hj0, hf⟩ | ⟨jp, rfl, hjp⟩
          · subst hj0
            right
            refine ⟨0, rfl, ?_⟩
            have : c = '\\' := by simpa using hf
            simp [this]
          · right
            exact ⟨jp + 1, rfl, by simpa using hjp⟩
      · intro hlt
        have hlt' : k < cs.length := by
          simp at hlt
          omega
        obtain ⟨hq', hdisj⟩ := hstop hlt'
        refine ⟨by simpa using hq', ?_⟩
        rcases hdisj with ⟨rfl, hf⟩ | ⟨kp, rfl, hkp⟩
        · right
          refine ⟨0, rfl, ?_⟩
          intro c' hc' hcontra
          have hc : c = c' := by simpa using hc'
          rw [hc, hcontra] at hf
          simp at hf
        · right
          exact ⟨kp + 1, rfl, fun c' hc' => hkp c' (by simpa using hc')⟩

/-! ### The claims -/

/-- C1 (counterexample): evaluating `Length` on the String `"abcd"` does
not produce `Number(4)` — it is the type-mismatch error
`'length' can only be applied on 'Array'. / Found 'String' instead.` -/
theorem c1_counterexample :
    apply (.QString "abcd") [.Length] = .error (typeErr "length" "Array" "String")
  ∧ apply (.QString "abcd") [.Length] ≠ .ok (.Number 4) := by
  constructor
  · simp [apply, JsonToken.variant]
  · simp [apply]

/-- C1 (amended): evaluating the `Length` property returns
`Number(element count)` when the value is an Array, and for every other
discriminant — String included — a type-mismatch error naming the value's
actual discriminant. -/
theorem c1_length_semantics (v : JsonToken) :
    (∀ xs, v = .Array xs → apply v [.Length] = .ok (.Number (xs.length : ℚ)))
  ∧ ((∀ xs, v ≠ .Array xs) →
      apply v [.Length] = .error (typeErr "length" "Array" v.variant)) := by
  constructor
  · rintro xs rfl; simp [apply]
  · intro h
    cases v with
    | Array xs => exact absurd rfl (h xs)
    | Null => simp [apply, JsonToken.variant]
    | Boolean b => simp [apply, JsonToken.variant]
    | Number n => simp [apply, JsonToken.variant]
    | QString s => simp [apply, JsonToken.variant]
    | Object kvs => simp [apply, JsonToken.variant]

/-- C1 (witness): `Length` at concrete inputs — count `3` on a three-element
array, the `String`-naming mismatch on a string. -/
theorem c1_length_semantics_witness :
    apply (.Array [.Null, .Boolean true, .Number 0]) [.Length] =
      .ok (.Number (([JsonToken.Null, .Boolean true, .Number 0] : List JsonToken).length : ℚ))
  ∧ apply (.QString "abcd") [.Length] =
      .error (typeErr "length" "Array" (JsonToken.QString "abcd").variant) :=
  ⟨(c1_length_semantics (.Array [.Null, .Boolean true, .Number 0])).1 _ rfl,
   (c1_length_semantics (.QString "abcd")).2 (fun xs h => by cases h)⟩

/-- C2: round-trip failure — the claim/spec require
`parse(render(parse(text).value)) == parse(text).value`, but rendering
escapes object keys (stored raw) through `Debug`, so the raw key `a\b` of
`{"a\b":1}` re-renders as `{"a\\b": 1}` and re-parses to the different raw
key `a\\b`. -/
theorem c2_render_reparse :
    parseRaw "\x7b\"a\\b\":1\x7d" =
      .ok (.Object [("a\\b", .Number 1)],
        { stack := "\x7b\"a\\b\":1\x7d".toList, cursor := 9 })
  ∧ render (.Object [("a\\b", .Number 1)]) = "\x7b\"a\\\\b\": 1\x7d"
  ∧ parseRaw "\x7b\"a\\\\b\": 1\x7d" =
      .ok (.Object [("a\\\\b", .Number 1)],
        { stack := "\x7b\"a\\\\b\": 1\x7d".toList, cursor := 11 })
  ∧ JsonToken.Object [("a\\b", .Number 1)] ≠ .Object [("a\\\\b", .Number 1)] := by
  refine ⟨rfl, ?_, rfl, ?_⟩
  · simp [render, renderMembers, debugStr, escapeDebugChar, displayF32, intRepr]
    rfl
  · simp

/-- C3 (counterexample): `consume_string("null")` on the strict-prefix
input `nul` *succeeds* (end of input acts as a wildcard, the cursor lands
at 4, past the end), and consequently `parse("nul")` yields `Null`. -/
theorem c3_counterexample :
    (Lexer.new "nul").consumeString "null" =
      some ("null", { stack := "nul".toList, cursor := 4 })
  ∧ parseRaw "nul" = .ok (.Null, { stack := "nul".toList, cursor := 4 }) :=
  ⟨rfl, rfl⟩

/-- C4: `Lexer::position` is 0-based at the origin, not 1-based — offset 0
maps to row 0, column 0, contradicting `Position::new() = (MINROW, MINCOL)
= (1, 1)` declared in the same file; `parse("@")` reports its error at
`(0, 0)` (and the `position.row - 1` line slice then underflows, yielding
an empty source line). -/
theorem c4_position_zero_based :
    (Lexer.new "@").position 0 = { row := 0, col := 0 }
  ∧ Position.new = { row := 1, col := 1 }
  ∧ parse "@" = some (.error ⟨"", { row := 0, col := 0 }, .SyntaxError⟩) :=
  ⟨rfl, rfl, rfl⟩

/-- C5: `Map(q)` on an Array applies `q` to every element — if all succeed
the results are collected into an Array of the same length (the `Forall₂`
witness), if any element fails the whole map fails with an element's
propagated error and no partial array, and on a non-Array it is the
type-mismatch error naming the actual discriminant. -/
theorem c5_map_semantics :
    (∀ (q : List JsonProperty) (xs rs : List JsonToken),
        List.Forall₂ (fun x r => apply x q = .ok r) xs rs →
        apply (.Array xs) [.Map q] = .ok (.Array rs))
  ∧ (∀ (q : List JsonProperty) (xs : List JsonToken) (x : JsonToken) (e : String),
        x ∈ xs → apply x q = .error e →
        ∃ e', apply (.Array xs) [.Map q] = .error e' ∧
          ∃ y ∈ xs, apply y q = .error e')
  ∧ (∀ (q : List JsonProperty) (v : JsonToken), (∀ xs, v ≠ .Array xs) →
        apply v [.Map q] = .error (typeErr "map" "Array" v.variant)) := by
  refine ⟨?_, ?_, ?_⟩
  · intro q xs rs h
    simp [apply, applyList_ok_of_forall2 h]
  · intro q xs x e hmem herr
    rcases applyList_error_of_mem hmem herr with ⟨e', he', hex⟩
    exact ⟨e', by simp [apply, he'], hex⟩
  · intro q v h
    cases v with
    | Array xs => exact absurd rfl (h xs)
    | Null => simp [apply, JsonToken.variant]
    | Boolean b => simp [apply, JsonToken.variant]
    | Number n => simp [apply, JsonToken.variant]
    | QString s => simp [apply, JsonToken.variant]
    | Object kvs => simp [apply, JsonToken.variant]

/-- C5 (witness): `.map(.id)` over `[{"id":1},{"id":2}]` yields `[1,2]`;
with an element lacking `id` the whole map fails with that element's
error; mapping over a Number is the mismatch naming `Number`. -/
theorem c5_map_semantics_witness :
    apply (.Array [.Object [("id", .Number 1)], .Object [("id", .Number 2)]])
        [.Map [.Dot "id"]] = .ok (.Array [.Number 1, .Number 2])
  ∧ (∃ e', apply (.Array [.Object [("id", .Number 1)], .Object [("x", .Number 2)]])
        [.Map [.Dot "id"]] = .error e' ∧
      ∃ y ∈ [JsonToken.Object [("id", .Number 1)], .Object [("x", .Number 2)]],
        apply y [.Dot "id"] = .error e')
  ∧ apply (.Number 0) [.Map [.Dot "id"]] =
      .error (typeErr "map" "Array" (JsonToken.Number 0).variant) := by
  refine ⟨?_, ?_, ?_⟩
  · exact c5_map_semantics.1 [.Dot "id"] _ _
      (.cons (by simp [apply, alistGet, List.find?])
        (.cons (by simp [apply, alistGet, List.find?]) .nil))
  · exact c5_map_semantics.2.1 [.Dot "id"] _ (.Object [("x", .Number 2)])
      "key doesn't exist: 'id'"
      (by simp) (by simp [apply, alistGet, List.find?])
  · exact c5_map_semantics.2.2 [.Dot "id"] (.Number 0) (fun xs h => by cases h)

/-- C6 (counterexample): the duplicate-key error for `{"a":1,"a":2}` is at
offset 10 — one past the second key's closing quote — not at the start of
the second key occurrence (offset 7, its opening quote, or 8, its first
character). -/
theorem c6_counterexample :
    parseRaw "\x7b\"a\":1,\"a\":2\x7d" =
      .err (.DuplicateKeyError, 10)
        { stack := "\x7b\"a\":1,\"a\":2\x7d".toList, cursor := 10 }
  ∧ (10 : Nat) ≠ 7 ∧ (10 : Nat) ≠ 8 :=
  ⟨rfl, by decide, by decide⟩

/-- C6 (amended): a key equal to a previously inserted key always aborts
with `DuplicateKeyError` (never a silent overwrite), and the error offset
is the walk-back `cursor - (key byte length - 1)` in wrapping `usize`
arithmetic from the position after the key's closing quote — offset 10 for
the 1-byte key of `{"a":1,"a":2}`, offset 11 (the closing quote) for the
2-byte key of `{"ab":1,"ab":2}`. -/
theorem c6_duplicate_key_walkback :
    (∀ (fuel : Nat) (l : Lexer) (acc : List (String × JsonToken)) (key : String),
        alistContains acc key = true →
        objectLoop (fuel + 1) l acc key =
          .err (.DuplicateKeyError, wsub l.cursor (wsub (byteLen key.toList) 1))
            { l with cursor := wsub l.cursor (wsub (byteLen key.toList) 1) })
  ∧ parseRaw "\x7b\"a\":1,\"a\":2\x7d" =
      .err (.DuplicateKeyError, 10)
        { stack := "\x7b\"a\":1,\"a\":2\x7d".toList, cursor := 10 }
  ∧ parseRaw "\x7b\"ab\":1,\"ab\":2\x7d" =
      .err (.DuplicateKeyError, 11)
        { stack := "\x7b\"ab\":1,\"ab\":2\x7d".toList, cursor := 11 } := by
  refine ⟨?_, rfl, rfl⟩
  intro fuel l acc key h
  simp [objectLoop, parseStep, h]

/-- C6 (witness): the walk-back conjunct at a concrete duplicate key. -/
theorem c6_duplicate_key_walkback_witness :
    objectLoop (4 + 1) { stack := "x".toList, cursor := 10 } [("a", .Null)] "a" =
      .err (.DuplicateKeyError, wsub 10 (wsub (byteLen ("a" : String).toList) 1))
        { stack := "x".toList
        , cursor := wsub 10 (wsub (byteLen ("a" : String).toList) 1) } :=
  c6_duplicate_key_walkback.1 4 _ [("a", .Null)] "a" rfl

/-- C7: in the comma loops a comma not followed by a valid next value
(arrays) or quoted key (objects) aborts with the distinct
`TrailingCommaError` at the un-trimmed position; concretely `[1,2,3,]` and
`{"a":1,}` fail with `TrailingCommaError` at the comma (offset 6), while
the leading comma of `[,1,2]` is a plain `SyntaxError` (offset 1). -/
theorem c7_trailing_comma :
    (∀ (fuel : Nat) (l : Lexer) (acc : List JsonToken) (l1 l2 l3 : Lexer)
        (e : JsonErrorType × Nat) (l4 : Lexer),
        trimFront l = some l1 → parseByteP l1 ',' = .ok l2 →
        trimFront l2 = some l3 → parseAny fuel l3 = .err e l4 →
        arrayLoop (fuel + 1) l acc =
          .err (.TrailingCommaError, (untrimFront l4).cursor) (untrimFront l4))
  ∧ (∀ (fuel : Nat) (l : Lexer) (acc : List (String × JsonToken)) (l6 l7 : Lexer)
        (e : JsonErrorType × Nat) (l8 : Lexer),
        parseByteP l ',' = .ok l6 → trimFront l6 = some l7 →
        parseQString l7 = .err e l8 →
        objectComma (fuel + 1) l acc =
          .err (.TrailingCommaError, (untrimFront l8).cursor) (untrimFront l8))
  ∧ parseRaw "[1,2,3,]" =
      .err (.TrailingCommaError, 6) { stack := "[1,2,3,]".toList, cursor := 6 }
  ∧ parseRaw "\x7b\"a\":1,\x7d" =
      .err (.TrailingCommaError, 6) { stack := "\x7b\"a\":1,\x7d".toList, cursor := 6 }
  ∧ parseRaw "[,1,2]" =
      .err (.SyntaxError, 1) { stack := "[,1,2]".toList, cursor := 1 } := by
  refine ⟨?_, ?_, rfl, rfl, rfl⟩
  · intro fuel l acc l1 l2 l3 e l4 h1 h2 h3 h4
    simp only [parseAny] at h4
    simp [arrayLoop, parseStep, h1, h2, h3, h4]
  · intro fuel l acc l6 l7 e l8 h1 h2 h3
    simp [objectComma, parseStep, h1, h2, h3]

/-- C7 (witness): both loop conjuncts at concrete states (a comma followed
by `]` resp. `}`). -/
theorem c7_trailing_comma_witness :
    arrayLoop (4 + 1) { stack := ",]".toList, cursor := 0 } [] =
      .err (.TrailingCommaError,
          (untrimFront { stack := ",]".toList, cursor := 1 }).cursor)
        (untrimFront { stack := ",]".toList, cursor := 1 })
  ∧ objectComma (4 + 1) { stack := ",\x7d".toList, cursor := 0 } [] =
      .err (.TrailingCommaError,
          (untrimFront { stack := ",\x7d".toList, cursor := 1 }).cursor)
        (untrimFront { stack := ",\x7d".toList, cursor := 1 }) :=
  ⟨c7_trailing_comma.1 4 { stack := ",]".toList, cursor := 0 } []
      { stack := ",]".toList, cursor := 0 } { stack := ",]".toList, cursor := 1 }
      { stack := ",]".toList, cursor := 1 } (.SyntaxError, 1)
      { stack := ",]".toList, cursor := 1 } rfl rfl rfl rfl,
   c7_trailing_comma.2.1 4 { stack := ",\x7d".toList, cursor := 0 } []
      { stack := ",\x7d".toList, cursor := 1 } { stack := ",\x7d".toList, cursor := 1 }
      (.SyntaxError, 1) { stack := ",\x7d".toList, cursor := 1 } rfl rfl rfl⟩

/-- C8 (counterexample): in the 5-char input `"\\""` the quote at index 3
is preceded by an *even* number (two) of backslashes, so under the claim
it would terminate the string with body `\\`; the code's single-char
escape flag instead consumes it, producing the body `\\"` and closing at
the final quote. -/
theorem c8_counterexample :
    parseQString (Lexer.new "\"\\\\\"\"") =
      .ok (.QString "\\\\\"", { stack := "\"\\\\\"\"".toList, cursor := 5 })
  ∧ ("\\\\\"" : String) ≠ "\\\\" :=
  ⟨rfl, by decide⟩

/-- C9 (counterexample): on a non-Object value the `Dot` and `Bracket`
steps do *not* produce identical results — the query-structure errors
render the property in its own source syntax (`.a` vs `["a"]`). -/
theorem c9_counterexample :
    apply .Null [.Dot "a"] ≠ apply .Null [.Bracket "a"] := by
  simp [apply, orphanErr, displayProp]

/-- C9 (amended): `Dot(s)` and `Bracket(s)` coincide on every Object (the
looked-up value, or the same missing-key error) with any continuation; on
every non-Object both fail, but with query-structure errors that differ
only in the property's source-syntax rendering. -/
theorem c9_dot_bracket (v : JsonToken) (s : String) (rest : List JsonProperty) :
    ((∃ kvs, v = .Object kvs) →
        apply v (.Dot s :: rest) = apply v (.Bracket s :: rest))
  ∧ ((∀ kvs, v ≠ .Object kvs) →
      apply v (.Dot s :: rest) = .error (orphanErr (.Dot s)) ∧
        apply v (.Bracket s :: rest) = .error (orphanErr (.Bracket s))) := by
  constructor
  · rintro ⟨kvs, rfl⟩
    simp [apply]
  · intro h
    cases v with
    | Object kvs => exact absurd rfl (h kvs)
    | Null => exact ⟨by simp [apply], by simp [apply]⟩
    | Boolean b => exact ⟨by simp [apply], by simp [apply]⟩
    | Number n => exact ⟨by simp [apply], by simp [apply]⟩
    | QString s' => exact ⟨by simp [apply], by simp [apply]⟩
    | Array xs => exact ⟨by simp [apply], by simp [apply]⟩

/-- C9 (witness): the coincidence on a concrete Object and the two
failure shapes on `Null`. -/
theorem c9_dot_bracket_witness :
    apply (.Object [("a", .Boolean true)]) [.Dot "a"] =
      apply (.Object [("a", .Boolean true)]) [.Bracket "a"]
  ∧ apply .Null [.Dot "a"] = .error (orphanErr (.Dot "a")) :=
  ⟨(c9_dot_bracket (.Object [("a", .Boolean true)]) "a" []).1 ⟨_, rfl⟩,
   ((c9_dot_bracket .Null "a" []).2 (fun kvs h => by cases h)).1⟩

/-- C10 (counterexample): `parse` can panic — on `[nul` the overrunning
`consume_string` leaves the cursor past the end of input and the array
loop's next `consume_while` slices out of range. -/
theorem c10_counterexample : parseRaw "[nul" = .crashed := rfl

/-- C10 (amended): the walk-back for an empty duplicate key computes
`key.len() - 1 = 0 - 1`, which underflows `usize` (a debug build panics);
under wrapping (release) semantics the cursor moves *forward* from 8 to 9,
so `{"":1,"":2}` reports `DuplicateKeyError` at offset 9. -/
theorem c10_crash_and_wrap :
    parseRaw "\x7b\"\":1,\"\":2\x7d" =
      .err (.DuplicateKeyError, 9)
        { stack := "\x7b\"\":1,\"\":2\x7d".toList, cursor := 9 }
  ∧ wsub (byteLen ("" : String).toList) 1 = 2 ^ 64 - 1
  ∧ wsub 8 (2 ^ 64 - 1) = 9 :=
  ⟨rfl, rfl, rfl⟩


/-- C3 (amended): `consume_string` succeeds iff every literal character
that falls within the input matches it — characters of the literal beyond
the end of input are accepted vacuously — and on success it returns the
literal itself with the cursor advanced by the literal's full length
(possibly past the end of the input); on failure the cursor is untouched
(the `none` result carries no state change). -/
theorem c3_match_literal (l : Lexer) (ys : String) :
    ((l.consumeString ys).isSome = true ↔
        ∀ j y x, ys.toList[j]? = some y → l.stack[l.cursor + j]? = some x → y = x)
  ∧ (∀ s' l', l.consumeString ys = some (s', l') →
        s' = ys ∧ l' = { l with cursor := l.cursor + ys.toList.length }) := by
  constructor
  · have hiff : (l.consumeString ys).isSome =
        (consumeStringLoop l.stack ys.toList l.cursor).isSome := by
      unfold Lexer.consumeString
      rcases h : consumeStringLoop l.stack ys.toList l.cursor with _ | ni <;> simp
    rw [hiff, consumeStringLoop_some_iff]
  · intro s' l' hsome
    unfold Lexer.consumeString at hsome
    rcases consumeStringLoop_shape l.stack ys.toList l.cursor with h | h
    · rw [h] at hsome
      simp only [Option.some.injEq, Prod.mk.injEq] at hsome
      exact ⟨hsome.1.symm, hsome.2.symm⟩
    · rw [h] at hsome
      cases hsome

/-- C3 (witness): the amended success shape at the strict-prefix instance
`consume_string("null")` over the input `nul`. -/
theorem c3_match_literal_witness :
    ("null" : String) = "null" ∧
      ({ stack := "nul".toList, cursor := 4 } : Lexer) =
        { Lexer.new "nul" with
            cursor := (Lexer.new "nul").cursor + ("null" : String).toList.length } :=
  (c3_match_literal (Lexer.new "nul") "null").2 "null"
    { stack := "nul".toList, cursor := 4 } rfl

/-- C8 (amended): in the string-body scan a quote is a terminator iff the
character immediately before it is not a backslash (a single-character
escape flag, not backslash parity): the consumed body is the prefix up to
the first such quote — every quote inside the body is directly preceded by
a backslash — and the scan, if it stops early, stops on a quote whose
direct predecessor is not a backslash.  The body is stored as scanned,
escape sequences unprocessed. -/
theorem c8_terminator_rule (cs : List Char) :
    ∃ k, takeWhileSt qstringStep false cs = cs.take k ∧ k ≤ cs.length ∧
      (∀ j, j < k → cs[j]? = some '"' →
          ∃ jp, j = jp + 1 ∧ cs[jp]? = some '\\') ∧
      (k < cs.length → cs[k]? = some '"' ∧
          (k = 0 ∨ ∃ kp, k = kp + 1 ∧ ∀ c, cs[kp]? = some c → c ≠ '\\')) := by
  obtain ⟨k, hk, hkle, hin, hstop⟩ := takeWhileSt_qstring_spec cs false
  refine ⟨k, hk, hkle, ?_, ?_⟩
  · intro j hj hjq
    rcases hin j hj hjq with ⟨_, h⟩ | h
    · cases h
    · exact h
  · intro hlt
    obtain ⟨hq, hdisj⟩ := hstop hlt
    refine ⟨hq, ?_⟩
    rcases hdisj with ⟨rfl, _⟩ | ⟨kp, rfl, h⟩
    · exact Or.inl rfl
    · exact Or.inr ⟨kp, rfl, h⟩

end Ruson
